import Mathlib

/-!
Verification development for the qwen-utcp knowledge-base pipeline.

The Python sources under src/tools are shallowly embedded below: pure
functions become Lean functions over lists and strings, the stateful
knowledge-base accessors become explicit state passing, and fallible
file reads become Except values.  Wall-clock timestamps, logging and
file writes are metadata or effects outside the properties considered
here and are either carried as opaque string parameters or omitted.
Python floats appearing only as the literal constants 0.5, 0.8, 1.0
are modelled as exact rationals.
-/

/-- Character constants written via code points so the embedding avoids
quote characters inside literals. -/
def sqChar : Char := Char.ofNat 39

/-- Double-quote character. -/
def dqChar : Char := Char.ofNat 34

/-- Newline character. -/
def nlChar : Char := Char.ofNat 10

/-- Single-quote as a one-character string. -/
def sqStr : String := String.mk [sqChar]

/-- Boolean test that a character list starts with a given pattern list. -/
def listStartsWith : List Char → List Char → Bool
  | _, [] => true
  | [], _ :: _ => false
  | c :: s, p :: ps => c == p && listStartsWith s ps

/-- Python str.startswith on strings. -/
def pyStartsWith (s p : String) : Bool := listStartsWith s.data p.data

/-- Python str.endswith on strings. -/
def pyEndsWith (s p : String) : Bool := listStartsWith s.data.reverse p.data.reverse

/-- Boolean infix test: does the haystack list have the needle list as a
contiguous segment (Python substring membership)? -/
def listHasInfix : List Char → List Char → Bool
  | [], needle => needle.isEmpty
  | c :: t, needle => listStartsWith (c :: t) needle || listHasInfix t needle

/-- Python substring membership: needle in hay. -/
def pyIn (needle hay : String) : Bool := listHasInfix hay.data needle.data

/-- Python str.lower, ASCII model. -/
def pyLower (s : String) : String := String.mk (s.data.map Char.toLower)

/-- Python str.strip() with no argument: whitespace removed at both ends. -/
def pyStrip (s : String) : String :=
  String.mk (((s.data.dropWhile Char.isWhitespace).reverse.dropWhile Char.isWhitespace).reverse)

/-- Python slice s[n:]: drop the first n characters. -/
def pyDrop (s : String) (n : Nat) : String := String.mk (s.data.drop n)

/-- Python slice s[:n]: take the first n characters. -/
def pyTake (s : String) (n : Nat) : String := String.mk (s.data.take n)

/-- Python strip with an explicit character set: characters from the set
removed at both ends.  Used for the strip of quote characters in title
extraction. -/
def pyStripChars (s : String) (cs : List Char) : String :=
  String.mk (((s.data.dropWhile (fun c => cs.contains c)).reverse.dropWhile
    (fun c => cs.contains c)).reverse)

/-- Worker for splitting a character list on a separator character,
keeping empty pieces, as Python str.split(sep) does. -/
def splitOnCharGo (sep : Char) : List Char → List Char → List String
  | cur, [] => [String.mk cur.reverse]
  | cur, c :: rest =>
      if c = sep then String.mk cur.reverse :: splitOnCharGo sep [] rest
      else splitOnCharGo sep (c :: cur) rest

/-- Python content.split with a newline separator, keeping empty lines. -/
def pySplitLines (s : String) : List String := splitOnCharGo nlChar [] s.data

/-- Worker for whitespace splitting that drops empty pieces, as Python
str.split() with no argument does. -/
def splitWsGo : List Char → List Char → List String
  | cur, [] => if cur.isEmpty then [] else [String.mk cur.reverse]
  | cur, c :: rest =>
      if c.isWhitespace then
        (if cur.isEmpty then splitWsGo [] rest
         else String.mk cur.reverse :: splitWsGo [] rest)
      else splitWsGo (c :: cur) rest

/-- Python str.split() with no argument. -/
def pySplitWs (s : String) : List String := splitWsGo [] s.data

/-- Python single-character str.replace, used for the underscore and
hyphen replacements in filename-derived titles. -/
def pyReplaceChar (s : String) (a b : Char) : String :=
  String.mk (s.data.map (fun c => if c = a then b else c))

/-- Worker for Python str.title: the Boolean records whether the previous
character was alphabetic, so each alphabetic run is capitalised at its
first character and lowercased afterwards. -/
def pyTitleGo : Bool → List Char → List Char
  | _, [] => []
  | prevCased, c :: rest =>
      if c.isAlpha then
        (if prevCased then c.toLower else c.toUpper) :: pyTitleGo true rest
      else c :: pyTitleGo false rest

/-- Python str.title, ASCII model. -/
def pyTitle (s : String) : String := String.mk (pyTitleGo false s.data)

/-- Relationship type enumeration from the data model: the three
relationship kinds the two processors emit. -/
inductive RelType
  | co_occurrence
  | same_file
  | contains
deriving DecidableEq

/-- Relationship record from utcp_kb_processor.py and
basic_utcp_processor.py, with the wall-clock timestamp field omitted. -/
structure Relationship where
  source : String
  target : String
  rtype : RelType
  strength : ℚ
  source_repo : String
  source_file : String
  context : String
deriving DecidableEq

/-- Concept record from the two processors, timestamp omitted.  The type
field is a string because the NLP branch of the kb processor labels
concepts with arbitrary entity labels. -/
structure ConceptRecord where
  name : String
  ctype : String
  source_repo : String
  source_file : String
  context : String
  description : String
  tags : List String
deriving DecidableEq

/-- Inner loop of extract_relationships_from_extraction over functions:
for each position, pair the function with every later function, skipping
equal names, emitting a same_file relationship of strength 1.0. -/
def sameFileRels (repo fp : String) : List String → List Relationship
  | [] => []
  | f1 :: rest =>
      (rest.filter (fun f2 => f1 != f2)).map (fun f2 =>
        { source := f1, target := f2, rtype := RelType.same_file, strength := 1,
          source_repo := repo, source_file := fp,
          context := "Both functions appear in " ++ fp })
      ++ sameFileRels repo fp rest

/-- Class-by-function cross product of extract_relationships_from_extraction:
every class paired with every function, a contains relationship of
strength 0.8, with no source-distinct-from-target guard. -/
def classFunctionRels (repo fp : String) (classes functions : List String) :
    List Relationship :=
  classes.flatMap (fun cls => functions.map (fun func =>
    { source := cls, target := func, rtype := RelType.contains, strength := 4/5,
      source_repo := repo, source_file := fp,
      context := "Class " ++ cls ++ " may contain or use function " ++ func }))

/-- Key-term pairing loop of extract_relationships_from_extraction: all
later-position pairs of distinct terms, co_occurrence of strength 0.5. -/
def coOccurrenceRelsKb (repo fp : String) : List String → List Relationship
  | [] => []
  | t1 :: rest =>
      (rest.filter (fun t2 => t1 != t2)).map (fun t2 =>
        { source := t1, target := t2, rtype := RelType.co_occurrence, strength := 1/2,
          source_repo := repo, source_file := fp,
          context := "Terms " ++ sqStr ++ t1 ++ sqStr ++ " and " ++ sqStr ++ t2 ++ sqStr
            ++ " appear in the same document" })
      ++ coOccurrenceRelsKb repo fp rest

/-- UTCPKnowledgeProcessor.extract_relationships_from_extraction from
utcp_kb_processor.py: for code files the same-file function pairs and the
class-by-function cross product, then for every file the key-term
co-occurrence pairs. -/
def extract_relationships_from_extraction (repo fp contentType : String)
    (functions classes keyTerms : List String) : List Relationship :=
  (if contentType = "code" then
    sameFileRels repo fp functions ++ classFunctionRels repo fp classes functions
  else [])
  ++ coOccurrenceRelsKb repo fp keyTerms

/-- Key-term pairing loop of extract_relationships_basic from
basic_utcp_processor.py: all later-position pairs of distinct terms,
co_occurrence of strength 0.5. -/
def coOccurrenceRelsBasic (repo fp : String) : List String → List Relationship
  | [] => []
  | t1 :: rest =>
      (rest.filter (fun t2 => t1 != t2)).map (fun t2 =>
        { source := t1, target := t2, rtype := RelType.co_occurrence, strength := 1/2,
          source_repo := repo, source_file := fp,
          context := "Terms " ++ sqStr ++ t1 ++ sqStr ++ " and " ++ sqStr ++ t2 ++ sqStr
            ++ " appear in the same file: " ++ fp })
      ++ coOccurrenceRelsBasic repo fp rest

/-- Repository-by-term loop of extract_relationships_basic: the repository
name paired with every key term, a contains relationship of strength 0.8,
with no source-distinct-from-target guard. -/
def repoTermRels (repo fp : String) (keyTerms : List String) : List Relationship :=
  keyTerms.map (fun term =>
    { source := repo, target := term, rtype := RelType.contains, strength := 4/5,
      source_repo := repo, source_file := fp,
      context := "Repository " ++ repo ++ " contains term " ++ sqStr ++ term ++ sqStr })

/-- extract_relationships_basic from basic_utcp_processor.py: key-term
co-occurrence pairs followed by the repository-contains-term
relationships. -/
def extract_relationships_basic (repo fp : String) (keyTerms : List String) :
    List Relationship :=
  coOccurrenceRelsBasic repo fp keyTerms ++ repoTermRels repo fp keyTerms

/-- Fields of the extracted_info dictionary consumed by the kb processor
(extract_by_content_type output).  Fields not read by the claims under
study (imports, comments, examples, spec elements) are omitted; the
dictionary .get defaults used by the processor make the absent-key and
empty cases coincide. -/
structure ExtractedInfo where
  title : String
  summary : String
  functions : List String
  classes : List String
  sections : List String
  key_terms : List String
deriving DecidableEq

/-- UTCPKnowledgeProcessor.extract_concepts_from_extraction from
utcp_kb_processor.py.  The optional nlp argument models self.nlp: when a
spaCy model is loaded it maps the first 10000 characters of the content
to the list of named entities as text-label pairs; when the model is
absent it is none and no NLP concepts are produced. -/
def extract_concepts_from_extraction
    (nlp : Option (String → List (String × String)))
    (repo fp contentType content : String) (info : ExtractedInfo) :
    List ConceptRecord :=
  (if contentType = "code" then
    info.functions.map (fun func =>
      { name := func, ctype := "function", source_repo := repo, source_file := fp,
        context := info.title, description := info.summary,
        tags := ["code", "function"] })
    ++ info.classes.map (fun cls =>
      { name := cls, ctype := "class", source_repo := repo, source_file := fp,
        context := info.title, description := info.summary,
        tags := ["code", "class"] })
  else if contentType = "documentation" ∨ contentType = "specification" then
    info.sections.map (fun sec =>
      { name := sec, ctype := "section", source_repo := repo, source_file := fp,
        context := info.title, description := info.summary,
        tags := ["documentation", "section"] })
  else [])
  ++ info.key_terms.map (fun term =>
    { name := term, ctype := "term", source_repo := repo, source_file := fp,
      context := info.title, description := info.summary, tags := ["term"] })
  ++ (match nlp with
      | some ents =>
          ((ents (pyTake content 10000)).filter
            (fun e => 2 < (pyStrip e.1).length)).map (fun e =>
            { name := e.1, ctype := e.2, source_repo := repo, source_file := fp,
              context := info.title, description := e.1,
              tags := ["nlp", "entity"] })
      | none => [])

/-- Error marker produced when extract_content catches an exception:
the file path, the exception text and a timestamp. -/
structure ErrorMarker where
  file_path : String
  error : String
  timestamp : String
deriving DecidableEq

/-- Facts record produced by a successful run of extract_content in
utcp_kb_extractor.py. -/
structure FileFacts where
  file_path : String
  content_type : String
  content : String
  line_count : Nat
  word_count : Nat
  extracted_info : ExtractedInfo
  timestamp : String
deriving DecidableEq

/-- One entry of the extractions list of an extraction file for the kb
pipeline: either a facts record or a record carrying an error key. -/
inductive KbExtractionRecord
  | err (m : ErrorMarker)
  | facts (f : FileFacts)
deriving DecidableEq

/-- UTCPKnowledgeExtractor.extract_content from utcp_kb_extractor.py.
The file read is modelled as an Except value (the content on success,
the exception text on failure) and the classification plus
content-type-specific extraction pair is the analyze argument, so the
function body is exactly the try block: on success it assembles the
facts record, on any caught exception it returns the error marker. -/
def extract_content (analyze : String → String × ExtractedInfo)
    (fp now : String) (readResult : Except String String) : KbExtractionRecord :=
  match readResult with
  | Except.ok content =>
      KbExtractionRecord.facts
        { file_path := fp,
          content_type := (analyze content).1,
          content := content,
          line_count := (pySplitLines content).length,
          word_count := (pySplitWs content).length,
          extracted_info := (analyze content).2,
          timestamp := now }
  | Except.error e =>
      KbExtractionRecord.err { file_path := fp, error := e, timestamp := now }

/-- UTCPKnowledgeProcessor.process_extraction from utcp_kb_processor.py:
walk the extraction records, skip any record carrying an error key, and
accumulate the concepts and relationships of the remaining records in
order. -/
def process_extraction (nlp : Option (String → List (String × String)))
    (repo : String) : List KbExtractionRecord → List ConceptRecord × List Relationship
  | [] => ([], [])
  | KbExtractionRecord.err _ :: rest => process_extraction nlp repo rest
  | KbExtractionRecord.facts f :: rest =>
      let tail := process_extraction nlp repo rest
      (extract_concepts_from_extraction nlp repo f.file_path f.content_type
          f.content f.extracted_info ++ tail.1,
       extract_relationships_from_extraction repo f.file_path f.content_type
          f.extracted_info.functions f.extracted_info.classes
          f.extracted_info.key_terms ++ tail.2)

/-- Facts record of the basic pipeline (extract_content_basic output):
title, summary and key terms are stored at the top level. -/
structure BasicFileFacts where
  file_path : String
  content_type : String
  content : String
  title : String
  summary : String
  key_terms : List String
deriving DecidableEq

/-- One entry of the extractions list of an extraction file for the
basic pipeline. -/
inductive BasicExtractionRecord
  | err (m : ErrorMarker)
  | facts (f : BasicFileFacts)
deriving DecidableEq

/-- Recognised file extensions excluded from path-component concepts in
extract_concepts_basic. -/
def pathExtList : List String :=
  [".py", ".ts", ".js", ".go", ".rs", ".ex", ".md", ".json", ".yaml", ".yml"]

/-- Python Path(file_path).parts for the slash-separated paths the
pipeline produces: the non-empty slash-separated segments. -/
def pyPathParts (fp : String) : List String :=
  (splitOnCharGo (Char.ofNat 47) [] fp.data).filter (fun p => !p.isEmpty)

/-- extract_concepts_basic from basic_utcp_processor.py: a title concept
when the title is non-empty and not the sentinel, a term concept per key
term, and a path_component concept per path segment longer than two
characters that does not end in a recognised extension. -/
def extract_concepts_basic (repo fp contentType title summary : String)
    (keyTerms : List String) : List ConceptRecord :=
  (if title ≠ "" ∧ title ≠ "No Title Found" then
    [{ name := title, ctype := "title", source_repo := repo, source_file := fp,
       context := if 100 < summary.length then pyTake summary 100 ++ "..." else summary,
       description := summary, tags := [contentType, "title"] }]
  else [])
  ++ keyTerms.map (fun term =>
    { name := term, ctype := "term", source_repo := repo, source_file := fp,
      context := title, description := summary, tags := [contentType, "term"] })
  ++ ((pyPathParts fp).filter
      (fun part => 2 < part.length && !(pathExtList.any (fun e => pyEndsWith part e)))).map
      (fun part =>
        { name := part, ctype := "path_component", source_repo := repo, source_file := fp,
          context := title, description := "Part of file path: " ++ fp,
          tags := ["path", "structure"] })

/-- process_extraction_basic from basic_utcp_processor.py: walk the
extraction records, skip any record carrying an error key, and accumulate
concepts and relationships of the remaining records in order. -/
def process_extraction_basic (repo : String) :
    List BasicExtractionRecord → List ConceptRecord × List Relationship
  | [] => ([], [])
  | BasicExtractionRecord.err _ :: rest => process_extraction_basic repo rest
  | BasicExtractionRecord.facts f :: rest =>
      let tail := process_extraction_basic repo rest
      (extract_concepts_basic repo f.file_path f.content_type f.title f.summary
          f.key_terms ++ tail.1,
       extract_relationships_basic repo f.file_path f.key_terms ++ tail.2)

/-- Principle record from utcp_kb_processor.py, timestamp omitted. -/
structure Principle where
  name : String
  description : String
  source_repo : String
  source_file : String
  context : String
deriving DecidableEq

/-- Indicator substrings extract_principles looks for in lowercased
concept names. -/
def principleIndicators : List String :=
  ["principle", "pattern", "design", "architecture", "protocol",
   "standard", "specification", "rule", "guideline"]

/-- First hardcoded seed principle of extract_principles. -/
def seedUniversalToolCalling : Principle :=
  { name := "Universal Tool Calling",
    description := "A protocol that lets AI agents call any native endpoint, over any channel - directly and without wrappers",
    source_repo := "utcp-specification",
    source_file := "specification",
    context := "Core UTCP principle" }

/-- Second hardcoded seed principle of extract_principles. -/
def seedDirectToolAccess : Principle :=
  { name := "Direct Tool Access",
    description := "AI agents can call tools directly without extra middleware",
    source_repo := "utcp-specification",
    source_file := "specification",
    context := "Core UTCP principle" }

/-- UTCPKnowledgeProcessor.extract_principles from utcp_kb_processor.py:
concepts whose lowercased name holds an indicator substring, followed by
the two hardcoded UTCP seed principles, which are appended to the result
unconditionally. -/
def extract_principles (concepts : List ConceptRecord)
    (_relationships : List Relationship) : List Principle :=
  (concepts.filter (fun c =>
    principleIndicators.any (fun ind => pyIn ind (pyLower c.name)))).map
    (fun c =>
      { name := c.name, description := c.description, source_repo := c.source_repo,
        source_file := c.source_file, context := c.context })
  ++ [seedUniversalToolCalling, seedDirectToolAccess]

/-- The deduplication step list(set(matches)) of extract_key_terms.  A
CPython set iterates in a hash-determined order; the embedding uses
first-occurrence order, which carries the same elements, and the
properties proved below (no duplicates, cardinality) are order
independent. -/
def pySetList (ms : List String) : List String := ms.dedup

/-- UTCPKnowledgeExtractor.extract_key_terms from utcp_kb_extractor.py,
abstracted over the regex match list: the matches deduplicated through a
set and truncated to at most 20 terms. -/
def extract_key_terms (ms : List String) : List String :=
  (pySetList ms).take 20

/-- Inverted-index entry append of create_search_index: position i is
appended to the posting list of word w. -/
def indexAdd (idx : String → List Nat) (w : String) (i : Nat) : String → List Nat :=
  fun t => if t = w then idx t ++ [i] else idx t

/-- Inner word loop of create_search_index for one entity: every word
longer than two characters appends the entity position to its posting
list. -/
def addEntityWords (i : Nat) : (String → List Nat) → List String → (String → List Nat)
  | idx, [] => idx
  | idx, w :: ws =>
      addEntityWords i (if 2 < w.length then indexAdd idx w i else idx) ws

/-- Searchable words of a concept in create_search_index: the lowercased
name joined to the lowercased description by a space, split on
whitespace. -/
def conceptWords (c : ConceptRecord) : List String :=
  pySplitWs (pyLower c.name ++ " " ++ pyLower c.description)

/-- Enumeration loop of create_search_index over the concept collection,
threading the index and the running position. -/
def buildConceptIndexGo : Nat → (String → List Nat) → List ConceptRecord →
    (String → List Nat)
  | _, idx, [] => idx
  | i, idx, c :: cs => buildConceptIndexGo (i + 1) (addEntityWords i idx (conceptWords c)) cs

/-- Concept inverted index built by create_search_index in
basic_utcp_ai_optimizer.py, as the total function from token to posting
list; a token is a key of the defaultdict exactly when its posting list
is non-empty. -/
def create_search_index_concepts (cs : List ConceptRecord) : String → List Nat :=
  buildConceptIndexGo 0 (fun _ => []) cs

/-- Title-scanning loop shared verbatim by extract_title in
utcp_kb_extractor.py and extract_title_basic in basic_utcp_extractor.py:
the first line of the given slice whose stripped form starts with a
markdown header marker yields the header text; a stripped form starting
with a title: prefix yields the rest with surrounding whitespace and
quote characters stripped. -/
def titleLoop : List String → Option String
  | [] => none
  | line :: rest =>
      let l := pyStrip line
      if pyStartsWith l "# " then some (pyStrip (pyDrop l 2))
      else if pyStartsWith l "title:" then
        some (pyStripChars (pyStrip (pyDrop l 6)) [dqChar, sqChar])
      else titleLoop rest

/-- UTCPKnowledgeExtractor.extract_title from utcp_kb_extractor.py: scan
the first 10 lines, and fall back to the sentinel string when no line
matches. -/
def extract_title (content : String) : String :=
  match titleLoop ((pySplitLines content).take 10) with
  | some t => t
  | none => "No Title Found"

/-- extract_title_basic from basic_utcp_extractor.py: scan the first 5
lines, and fall back to the filename with underscores and hyphens turned
into spaces and the result title-cased. -/
def extract_title_basic (content filename : String) : String :=
  match titleLoop ((pySplitLines content).take 5) with
  | some t => t
  | none =>
      pyTitle (pyReplaceChar (pyReplaceChar filename (Char.ofNat 95) (Char.ofNat 32))
        (Char.ofNat 45) (Char.ofNat 32))

/-- Title a single line yields, if any: the header text after a markdown
header marker, or the rest after a title: marker with whitespace and
quote characters stripped.  Shared by the specification-side scan. -/
def titleOfLine (line : String) : Option String :=
  let l := pyStrip line
  if pyStartsWith l "# " then some (pyStrip (pyDrop l 2))
  else if pyStartsWith l "title:" then
    some (pyStripChars (pyStrip (pyDrop l 6)) [dqChar, sqChar])
  else none

/-- Title scan written from the specification words, for comparison with
the source embeddings: the first of the first n lines that yields a
title under the header or title: prefixes. -/
def specTitleScan (n : Nat) (content : String) : Option String :=
  ((pySplitLines content).take n).findSome? titleOfLine

/-- State of a UTCPKnowledgeBase instance from utcp_kb_api.py.  The
knowledge-base directory is the function fs from subpath to the parsed
JSON array stored there (none when the file does not exist); the four
cache fields mirror the private attributes set to None by the
constructor.  The reads counter instruments the model: it counts how
often a collection file has been opened, which the Python object does
implicitly.  The element type is abstract because the loaded JSON
dictionaries are opaque to the caching logic. -/
structure KBState (α : Type) where
  fs : String → Option (List α)
  conceptsCache : Option (List α)
  relationshipsCache : Option (List α)
  principlesCache : Option (List α)
  patternsCache : Option (List α)
  reads : Nat

/-- UTCPKnowledgeBase.__init__: every cache starts at None and no
collection file has been read. -/
def initKB {α : Type} (fs : String → Option (List α)) : KBState α :=
  { fs := fs, conceptsCache := none, relationshipsCache := none,
    principlesCache := none, patternsCache := none, reads := 0 }

/-- UTCPKnowledgeBase._load_json: the parsed file when it exists, the
empty list when it does not. -/
def loadJson {α : Type} (st : KBState α) (subpath : String) : List α :=
  match st.fs subpath with
  | some v => v
  | none => []

/-- Relative path of the persisted concepts collection. -/
def conceptsPath : String := "processed-knowledge/all_concepts.json"

/-- Relative path of the persisted relationships collection. -/
def relationshipsPath : String := "processed-knowledge/all_relationships.json"

/-- Relative path of the persisted principles collection. -/
def principlesPath : String := "wisdom/principles/all_principles.json"

/-- Relative path of the persisted patterns collection. -/
def patternsPath : String := "wisdom/patterns/all_patterns.json"

/-- UTCPKnowledgeBase.get_concepts: return the cache when it is set,
otherwise read the file once, store it and return it. -/
def getConcepts {α : Type} (st : KBState α) : List α × KBState α :=
  match st.conceptsCache with
  | some l => (l, st)
  | none =>
      let l := loadJson st conceptsPath
      (l, { st with conceptsCache := some l, reads := st.reads + 1 })

/-- UTCPKnowledgeBase.get_relationships, with the same caching shape. -/
def getRelationships {α : Type} (st : KBState α) : List α × KBState α :=
  match st.relationshipsCache with
  | some l => (l, st)
  | none =>
      let l := loadJson st relationshipsPath
      (l, { st with relationshipsCache := some l, reads := st.reads + 1 })

/-- UTCPKnowledgeBase.get_principles, with the same caching shape. -/
def getPrinciples {α : Type} (st : KBState α) : List α × KBState α :=
  match st.principlesCache with
  | some l => (l, st)
  | none =>
      let l := loadJson st principlesPath
      (l, { st with principlesCache := some l, reads := st.reads + 1 })

/-- UTCPKnowledgeBase.get_patterns, with the same caching shape. -/
def getPatterns {α : Type} (st : KBState α) : List α × KBState α :=
  match st.patternsCache with
  | some l => (l, st)
  | none =>
      let l := loadJson st patternsPath
      (l, { st with patternsCache := some l, reads := st.reads + 1 })

/-- Replacement of the files behind a live instance, modelling an edit or
deletion of the JSON files after the object was constructed. -/
def setFs {α : Type} (st : KBState α) (fs : String → Option (List α)) : KBState α :=
  { st with fs := fs }

/-- Digit-run parser for the Python int conversion: digits with single
underscores allowed between digits, accumulating the value. -/
def pyDigitsGo : Nat → List Char → Option Nat
  | acc, [] => some acc
  | acc, c :: rest =>
      if c.isDigit then pyDigitsGo (acc * 10 + (c.toNat - 48)) rest
      else if c = Char.ofNat 95 then
        match rest with
        | d :: _ => if d.isDigit then pyDigitsGo acc rest else none
        | [] => none
      else none

/-- Digit part of a Python integer literal: non-empty, starting with a
digit. -/
def pyDigits : List Char → Option Nat
  | [] => none
  | c :: rest => if c.isDigit then pyDigitsGo 0 (c :: rest) else none

/-- Model of Python int(s) for strings: surrounding whitespace stripped,
an optional sign, then a digit run; none models the ValueError path. -/
def pyIntParse (s : String) : Option Int :=
  let t := ((s.data.dropWhile Char.isWhitespace).reverse.dropWhile Char.isWhitespace).reverse
  match t with
  | c :: rest =>
      if c = Char.ofNat 43 then (pyDigits rest).map (fun n => (n : Int))
      else if c = Char.ofNat 45 then (pyDigits rest).map (fun n => -(n : Int))
      else (pyDigits t).map (fun n => (n : Int))
  | [] => none

/-- Outcome of the concept-by-ID route: the three HTTP responses it can
produce for a loaded collection. -/
inductive ConceptLookup (α : Type)
  | found (c : α)
  | notFound
  | invalidId
deriving DecidableEq

/-- get_concept_by_id route of create_api_server in utcp_kb_api.py: the
path segment is converted with int; a ValueError yields the 400
response, an in-range index yields the concept at that position with
status 200, and an out-of-range index yields the 404 response.  The
function only reads the collection. -/
def get_concept_by_id {α : Type} (concepts : List α) (idStr : String) :
    ConceptLookup α :=
  match pyIntParse idStr with
  | none => ConceptLookup.invalidId
  | some i =>
      if h : 0 ≤ i ∧ i < (concepts.length : Int) then
        ConceptLookup.found (concepts.get ⟨i.toNat, by omega⟩)
      else ConceptLookup.notFound

/-- Concrete relationship used to witness the strength theorem: the
contains relationship the kb processor emits for class C and function f
in file p of repository r. -/
def witnessRel : Relationship :=
  { source := "C", target := "f", rtype := RelType.contains, strength := 4/5,
    source_repo := "r", source_file := "p",
    context := "Class C may contain or use function f" }

/-- Concrete file content whose first matching title line is the seventh
line, past the five lines extract_title_basic scans but within the ten
lines the claim describes. -/
def lateTitleContent : String := "\n\n\n\n\n\n# Real Title"

/-- Concrete concept used to witness the inverted-index theorem. -/
def witnessConcept : ConceptRecord :=
  { name := "UTCP Protocol", ctype := "term", source_repo := "r",
    source_file := "p", context := "ctx",
    description := "universal tool calling", tags := ["term"] }

/-- Principle record of the basic pipeline (extract_wisdom_basic),
timestamp omitted: it carries the list of repositories the name spans
instead of a single source location. -/
structure BasicPrinciple where
  name : String
  description : String
  source_repositories : List String
deriving DecidableEq

/-- The repository set term_repo_counts assigns to one concept name in
extract_wisdom_basic: the distinct source repositories of the concepts
carrying that name.  A CPython set iterates in a hash-determined order;
the embedding lists the repositories in first-occurrence order. -/
def termRepos (concepts : List ConceptRecord) (term : String) : List String :=
  ((concepts.filter (fun c => c.name == term)).map (fun c => c.source_repo)).dedup

/-- Iteration order of the term_repo_counts dictionary: concept names in
first-occurrence order, as a Python dict preserves insertion order. -/
def conceptNamesInOrder (concepts : List ConceptRecord) : List String :=
  (concepts.map (fun c => c.name)).dedup

/-- Principles portion of extract_wisdom_basic from
basic_utcp_processor.py: one principle per concept name longer than
three characters that spans more than one repository, describing the
repositories it appears in.  No seed principle is appended. -/
def extract_wisdom_basic_principles (concepts : List ConceptRecord) :
    List BasicPrinciple :=
  ((conceptNamesInOrder concepts).filter (fun term =>
      decide (1 < (termRepos concepts term).length ∧ 3 < term.length))).map
    (fun term =>
      { name := term,
        description := "Concept " ++ sqStr ++ term ++ sqStr
          ++ " appears in multiple repositories: "
          ++ String.intercalate ", " (termRepos concepts term),
        source_repositories := termRepos concepts term })

/-- Concrete concept named Protocol extracted from repository r1. -/
def repoAConcept : ConceptRecord :=
  { name := "Protocol", ctype := "term", source_repo := "r1",
    source_file := "a.md", context := "", description := "", tags := ["term"] }

/-- Concrete concept named Protocol extracted from repository r2. -/
def repoBConcept : ConceptRecord :=
  { name := "Protocol", ctype := "term", source_repo := "r2",
    source_file := "b.md", context := "", description := "", tags := ["term"] }

/-- The basic principle those two concepts produce. -/
def witnessBasicPrinciple : BasicPrinciple :=
  { name := "Protocol",
    description := "Concept " ++ sqStr ++ "Protocol" ++ sqStr
      ++ " appears in multiple repositories: r1, r2",
    source_repositories := ["r1", "r2"] }

/-- Every relationship emitted by the same-file loop is a same_file
relationship of strength 1 between two distinct function names. -/
theorem mem_sameFileRels {repo fp : String} {l : List String} {r : Relationship}
    (h : r ∈ sameFileRels repo fp l) :
    r.rtype = RelType.same_file ∧ r.strength = 1 ∧ r.source ≠ r.target := by
  induction l with
  | nil => simp [sameFileRels] at h
  | cons f1 rest ih =>
      simp only [sameFileRels, List.mem_append, List.mem_map, List.mem_filter] at h
      rcases h with ⟨f2, ⟨_, hne⟩, rfl⟩ | h
      · refine ⟨rfl, rfl, ?_⟩
        simpa using hne
      · exact ih h

/-- Every relationship emitted by the class-by-function cross product is a
contains relationship of strength 4/5 whose source is one of the classes
and whose target is one of the functions. -/
theorem mem_classFunctionRels {repo fp : String} {classes functions : List String}
    {r : Relationship} (h : r ∈ classFunctionRels repo fp classes functions) :
    r.rtype = RelType.contains ∧ r.strength = 4/5 ∧
      ∃ c ∈ classes, ∃ f ∈ functions, r.source = c ∧ r.target = f := by
  simp only [classFunctionRels, List.mem_flatMap, List.mem_map] at h
  obtain ⟨c, hc, f, hf, rfl⟩ := h
  exact ⟨rfl, rfl, c, hc, f, hf, rfl, rfl⟩

/-- Every relationship emitted by the kb key-term loop is a co_occurrence
relationship of strength 1/2 between two distinct terms. -/
theorem mem_coOccurrenceRelsKb {repo fp : String} {l : List String} {r : Relationship}
    (h : r ∈ coOccurrenceRelsKb repo fp l) :
    r.rtype = RelType.co_occurrence ∧ r.strength = 1/2 ∧ r.source ≠ r.target := by
  induction l with
  | nil => simp [coOccurrenceRelsKb] at h
  | cons t1 rest ih =>
      simp only [coOccurrenceRelsKb, List.mem_append, List.mem_map, List.mem_filter] at h
      rcases h with ⟨t2, ⟨_, hne⟩, rfl⟩ | h
      · refine ⟨rfl, rfl, ?_⟩
        simpa using hne
      · exact ih h

/-- Every relationship emitted by the basic key-term loop is a
co_occurrence relationship of strength 1/2 between two distinct terms. -/
theorem mem_coOccurrenceRelsBasic {repo fp : String} {l : List String} {r : Relationship}
    (h : r ∈ coOccurrenceRelsBasic repo fp l) :
    r.rtype = RelType.co_occurrence ∧ r.strength = 1/2 ∧ r.source ≠ r.target := by
  induction l with
  | nil => simp [coOccurrenceRelsBasic] at h
  | cons t1 rest ih =>
      simp only [coOccurrenceRelsBasic, List.mem_append, List.mem_map, List.mem_filter] at h
      rcases h with ⟨t2, ⟨_, hne⟩, rfl⟩ | h
      · refine ⟨rfl, rfl, ?_⟩
        simpa using hne
      · exact ih h

/-- Every relationship emitted by the repository-by-term loop is a
contains relationship of strength 4/5 from the repository name to one of
the key terms. -/
theorem mem_repoTermRels {repo fp : String} {keyTerms : List String}
    {r : Relationship} (h : r ∈ repoTermRels repo fp keyTerms) :
    r.rtype = RelType.contains ∧ r.strength = 4/5 ∧
      r.source = repo ∧ r.target ∈ keyTerms := by
  simp only [repoTermRels, List.mem_map] at h
  obtain ⟨t, ht, rfl⟩ := h
  exact ⟨rfl, rfl, rfl, ht⟩

/-- A relationship known to carry one of the three type-strength pairs
satisfies the per-type strength equations. -/
theorem strength_of_cases {r : Relationship}
    (h : (r.rtype = RelType.co_occurrence ∧ r.strength = 1/2) ∨
         (r.rtype = RelType.contains ∧ r.strength = 4/5) ∨
         (r.rtype = RelType.same_file ∧ r.strength = 1)) :
    (r.rtype = RelType.co_occurrence → r.strength = 1/2) ∧
    (r.rtype = RelType.contains → r.strength = 4/5) ∧
    (r.rtype = RelType.same_file → r.strength = 1) := by
  rcases h with ⟨ht, hs⟩ | ⟨ht, hs⟩ | ⟨ht, hs⟩ <;>
    refine ⟨?_, ?_, ?_⟩ <;> intro h2 <;> rw [ht] at h2 <;> first
      | exact hs
      | cases h2

/-- C2: every relationship emitted by either relationship generator has
the fixed strength its type determines: co_occurrence relationships have
strength 0.5, contains relationships 0.8, and same_file relationships
1.0. -/
theorem relationship_strengths_fixed
    (repo fp contentType : String) (functions classes keyTerms : List String) :
    (∀ r ∈ extract_relationships_from_extraction repo fp contentType
        functions classes keyTerms,
      (r.rtype = RelType.co_occurrence → r.strength = 1/2) ∧
      (r.rtype = RelType.contains → r.strength = 4/5) ∧
      (r.rtype = RelType.same_file → r.strength = 1)) ∧
    (∀ r ∈ extract_relationships_basic repo fp keyTerms,
      (r.rtype = RelType.co_occurrence → r.strength = 1/2) ∧
      (r.rtype = RelType.contains → r.strength = 4/5) ∧
      (r.rtype = RelType.same_file → r.strength = 1)) := by
  constructor
  · intro r h
    apply strength_of_cases
    simp only [extract_relationships_from_extraction, List.mem_append] at h
    rcases h with h | h
    · by_cases hc : contentType = "code"
      · rw [if_pos hc] at h
        rcases List.mem_append.mp h with h | h
        · exact Or.inr (Or.inr ⟨(mem_sameFileRels h).1, (mem_sameFileRels h).2.1⟩)
        · exact Or.inr (Or.inl ⟨(mem_classFunctionRels h).1, (mem_classFunctionRels h).2.1⟩)
      · rw [if_neg hc] at h
        simp at h
    · exact Or.inl ⟨(mem_coOccurrenceRelsKb h).1, (mem_coOccurrenceRelsKb h).2.1⟩
  · intro r h
    apply strength_of_cases
    simp only [extract_relationships_basic, List.mem_append] at h
    rcases h with h | h
    · exact Or.inl ⟨(mem_coOccurrenceRelsBasic h).1, (mem_coOccurrenceRelsBasic h).2.1⟩
    · exact Or.inr (Or.inl ⟨(mem_repoTermRels h).1, (mem_repoTermRels h).2.1⟩)

/-- Witness for C2: the concrete contains relationship emitted for class
C and function f satisfies the strength equations. -/
theorem relationship_strengths_fixed_witness :
    (witnessRel.rtype = RelType.co_occurrence → witnessRel.strength = 1/2) ∧
    (witnessRel.rtype = RelType.contains → witnessRel.strength = 4/5) ∧
    (witnessRel.rtype = RelType.same_file → witnessRel.strength = 1) :=
  (relationship_strengths_fixed "r" "p" "code" ["f"] ["C"] []).1 witnessRel (by
    simp [witnessRel, extract_relationships_from_extraction, sameFileRels,
      classFunctionRels, coOccurrenceRelsKb])

/-- C1 (counterexample): a code file whose class list and function list
share the name Foo makes the kb processor emit a contains relationship
with source equal to target, and a repository whose own name occurs
among the key terms of a file makes the basic processor do the same, so not
every emitted relationship satisfies source distinct from target. -/
theorem relationships_self_pair_counterexample :
    ((extract_relationships_from_extraction "r" "p" "code" ["Foo"] ["Foo"] []).any
      (fun r => r.source == r.target)) = true ∧
    ((extract_relationships_basic "r" "p" ["r"]).any
      (fun r => r.source == r.target)) = true := by
  constructor
  · simp [extract_relationships_from_extraction, sameFileRels, classFunctionRels,
      coOccurrenceRelsKb]
  · simp [extract_relationships_basic, coOccurrenceRelsBasic, repoTermRels]

/-- C1 (amended): same_file and co_occurrence relationships always have
source distinct from target; the contains cross products carry no such
guard, so the property extends to every emitted relationship exactly
when no class name is also a function name and the repository name is
not among the key terms. -/
theorem relationships_source_ne_target_amended
    (repo fp contentType : String) (functions classes keyTerms : List String)
    (hcf : ∀ c ∈ classes, c ∉ functions) (hrt : repo ∉ keyTerms) :
    (∀ r ∈ extract_relationships_from_extraction repo fp contentType
        functions classes keyTerms, r.source ≠ r.target) ∧
    (∀ r ∈ extract_relationships_basic repo fp keyTerms, r.source ≠ r.target) := by
  constructor
  · intro r h
    simp only [extract_relationships_from_extraction, List.mem_append] at h
    rcases h with h | h
    · by_cases hc : contentType = "code"
      · rw [if_pos hc] at h
        rcases List.mem_append.mp h with h | h
        · exact (mem_sameFileRels h).2.2
        · obtain ⟨_, _, c, hcm, f, hfm, hs, ht⟩ := mem_classFunctionRels h
          rw [hs, ht]
          intro heq
          exact hcf c hcm (heq ▸ hfm)
      · rw [if_neg hc] at h
        simp at h
    · exact (mem_coOccurrenceRelsKb h).2.2
  · intro r h
    simp only [extract_relationships_basic, List.mem_append] at h
    rcases h with h | h
    · exact (mem_coOccurrenceRelsBasic h).2.2
    · obtain ⟨_, _, hs, ht⟩ := mem_repoTermRels h
      rw [hs]
      intro heq
      exact hrt (heq ▸ ht)

/-- Witness for the amended C1: with distinct class and function names
and a repository name absent from the key terms, every relationship both
generators emit relates two distinct endpoints. -/
theorem relationships_source_ne_target_amended_witness :
    (∀ r ∈ extract_relationships_from_extraction "r" "p" "code"
        ["foo", "bar"] ["Baz"] ["UTCP", "API"], r.source ≠ r.target) ∧
    (∀ r ∈ extract_relationships_basic "r" "p" ["UTCP", "API"], r.source ≠ r.target) :=
  relationships_source_ne_target_amended "r" "p" "code" ["foo", "bar"] ["Baz"]
    ["UTCP", "API"] (by decide) (by decide)

/-- C4 (counterexample): the basic pipeline derives principles only from
the data: on the empty concept collection extract_wisdom_basic produces
no principles at all, so the hardcoded UTCP seed principles are absent
from its output, refuting the claim for this cited implementation. -/
theorem seed_principles_basic_counterexample :
    extract_wisdom_basic_principles [] = [] ∧
    ((extract_wisdom_basic_principles []).any (fun p =>
      p.name == "Universal Tool Calling" || p.name == "Direct Tool Access")) = false :=
  ⟨rfl, rfl⟩

/-- C4 (amended): the kb processor appends the two hardcoded UTCP seed
principles to the output of extract_principles for every concept and
relationship collection, including the empty ones, so they are always
present among the principles it returns; the basic processor appends no
seed: every principle extract_wisdom_basic emits carries the name of
some input concept, so an empty concept collection yields no
principles. -/
theorem seed_principles_amended
    (concepts : List ConceptRecord) (relationships : List Relationship) :
    (seedUniversalToolCalling ∈ extract_principles concepts relationships ∧
     seedDirectToolAccess ∈ extract_principles concepts relationships) ∧
    (∀ p ∈ extract_wisdom_basic_principles concepts,
      ∃ c ∈ concepts, p.name = c.name) := by
  refine ⟨⟨?_, ?_⟩, ?_⟩
  · simp [extract_principles]
  · simp [extract_principles]
  · intro p hp
    simp only [extract_wisdom_basic_principles, conceptNamesInOrder,
      List.mem_map, List.mem_filter] at hp
    obtain ⟨term, ⟨hterm, _⟩, rfl⟩ := hp
    obtain ⟨c, hc, hname⟩ := List.mem_map.mp (List.mem_dedup.mp hterm)
    exact ⟨c, hc, hname.symm⟩

/-- Witness for the amended C4: on the two Protocol concepts from
repositories r1 and r2, the seeds are present in the kb output and the
one basic principle emitted carries the name of an input concept. -/
theorem seed_principles_amended_witness :
    (seedUniversalToolCalling ∈ extract_principles [repoAConcept, repoBConcept] [] ∧
     seedDirectToolAccess ∈ extract_principles [repoAConcept, repoBConcept] []) ∧
    (∃ c ∈ [repoAConcept, repoBConcept], witnessBasicPrinciple.name = c.name) :=
  ⟨(seed_principles_amended [repoAConcept, repoBConcept] []).1,
   (seed_principles_amended [repoAConcept, repoBConcept] []).2
     witnessBasicPrinciple (by decide)⟩

/-- C5: content extraction is total over its modelled failure modes: a
failed read yields exactly the error marker with the file path,
exception text and timestamp, a successful read yields a facts record
for the same path, and both processors produce identical concept and
relationship collections whether or not an error record is present, so
a failing file contributes nothing and never aborts the batch. -/
theorem extraction_errors_contained
    (analyze : String → String × ExtractedInfo) (fp now : String) :
    (∀ e, extract_content analyze fp now (Except.error e)
        = KbExtractionRecord.err { file_path := fp, error := e, timestamp := now }) ∧
    (∀ content, ∃ f, extract_content analyze fp now (Except.ok content)
        = KbExtractionRecord.facts f ∧ f.file_path = fp) ∧
    (∀ (nlp : Option (String → List (String × String))) (repo : String)
        (pre post : List KbExtractionRecord) (m : ErrorMarker),
        process_extraction nlp repo (pre ++ KbExtractionRecord.err m :: post)
          = process_extraction nlp repo (pre ++ post)) ∧
    (∀ (repo : String) (pre post : List BasicExtractionRecord) (m : ErrorMarker),
        process_extraction_basic repo (pre ++ BasicExtractionRecord.err m :: post)
          = process_extraction_basic repo (pre ++ post)) := by
  refine ⟨fun e => rfl, fun content => ⟨_, rfl, rfl⟩, ?_, ?_⟩
  · intro nlp repo pre post m
    induction pre with
    | nil => simp [process_extraction]
    | cons rec rest ih =>
        cases rec <;> simp [process_extraction, ih]
  · intro repo pre post m
    induction pre with
    | nil => simp [process_extraction_basic]
    | cons rec rest ih =>
        cases rec <;> simp [process_extraction_basic, ih]

/-- C6: on a fresh knowledge-base instance whose relationships file does
not exist, get_relationships returns the empty collection instead of
raising. -/
theorem missing_relationships_file_yields_empty {α : Type}
    (fs : String → Option (List α)) (h : fs relationshipsPath = none) :
    (getRelationships (initKB fs)).1 = [] := by
  simp [getRelationships, initKB, loadJson, h]

/-- Witness for C6: a knowledge-base directory with no files at all. -/
theorem missing_relationships_file_yields_empty_witness :
    (getRelationships (initKB (fun _ => (none : Option (List Nat))))).1 = [] :=
  missing_relationships_file_yields_empty (fun _ => none) rfl

/-- C9: each of the four collection accessors caches its collection on
the first call: rerunning the accessor on the resulting instance, even
after the underlying files change arbitrarily, returns the identical
collection and leaves the state (including the count of file reads)
unchanged; a first call on a fresh instance performs exactly one read,
and only a newly constructed instance consults the new files. -/
theorem accessors_read_at_most_once {α : Type} (st : KBState α)
    (fs₂ : String → Option (List α)) :
    (getConcepts (setFs (getConcepts st).2 fs₂)
        = ((getConcepts st).1, setFs (getConcepts st).2 fs₂)) ∧
    (getRelationships (setFs (getRelationships st).2 fs₂)
        = ((getRelationships st).1, setFs (getRelationships st).2 fs₂)) ∧
    (getPrinciples (setFs (getPrinciples st).2 fs₂)
        = ((getPrinciples st).1, setFs (getPrinciples st).2 fs₂)) ∧
    (getPatterns (setFs (getPatterns st).2 fs₂)
        = ((getPatterns st).1, setFs (getPatterns st).2 fs₂)) ∧
    ((getConcepts (initKB fs₂)).2.reads = 1) ∧
    ((getConcepts (initKB fs₂)).1 = loadJson (initKB fs₂) conceptsPath) := by
  refine ⟨?_, ?_, ?_, ?_, ?_, ?_⟩
  · cases h : st.conceptsCache <;> simp [getConcepts, setFs, h]
  · cases h : st.relationshipsCache <;> simp [getRelationships, setFs, h]
  · cases h : st.principlesCache <;> simp [getPrinciples, setFs, h]
  · cases h : st.patternsCache <;> simp [getPatterns, setFs, h]
  · simp [getConcepts, initKB]
  · simp [getConcepts, initKB]

/-- C10: the concept-by-ID route returns the concept at the parsed index
with status 200 when the id parses to an in-range integer, the 404
not-found response when the integer is out of range, and the 400
invalid-id response when the string does not parse as an integer; the
lookup is a pure read of the collection. -/
theorem concept_by_id_trichotomy {α : Type} (concepts : List α) (s : String) :
    (pyIntParse s = none → get_concept_by_id concepts s = ConceptLookup.invalidId) ∧
    (∀ i c, pyIntParse s = some i → 0 ≤ i → concepts.get? i.toNat = some c →
        get_concept_by_id concepts s = ConceptLookup.found c) ∧
    (∀ i, pyIntParse s = some i → (i < 0 ∨ (concepts.length : Int) ≤ i) →
        get_concept_by_id concepts s = ConceptLookup.notFound) := by
  refine ⟨?_, ?_, ?_⟩
  · intro h
    simp [get_concept_by_id, h]
  · intro i c hp h0 hg
    have hlt : i.toNat < concepts.length := (List.get?_eq_some.mp hg).1
    have hrange : 0 ≤ i ∧ i < (concepts.length : Int) := by omega
    simp only [get_concept_by_id, hp, dif_pos hrange]
    have := (List.get?_eq_some.mp hg).2
    exact congrArg ConceptLookup.found this
  · intro i hp hrange
    have hnot : ¬(0 ≤ i ∧ i < (concepts.length : Int)) := by omega
    simp [get_concept_by_id, hp, dif_neg hnot]

/-- Witness for C10: on the two-element collection, id 1 resolves to the
second concept, id 7 is out of range, and id x is not an integer. -/
theorem concept_by_id_trichotomy_witness :
    get_concept_by_id ["a", "b"] "1" = ConceptLookup.found "b" ∧
    get_concept_by_id ["a", "b"] "7" = ConceptLookup.notFound ∧
    get_concept_by_id ["a", "b"] "x" = ConceptLookup.invalidId :=
  ⟨(concept_by_id_trichotomy ["a", "b"] "1").2.1 1 "b" (by decide) (by decide) (by decide),
   (concept_by_id_trichotomy ["a", "b"] "7").2.2 7 (by decide) (by decide),
   (concept_by_id_trichotomy ["a", "b"] "x").1 (by decide)⟩

/-- The basic key-term pairing loop emits at most n-choose-2
relationships for n key terms. -/
theorem coOccurrenceRelsBasic_length_le (repo fp : String) (l : List String) :
    (coOccurrenceRelsBasic repo fp l).length ≤ l.length.choose 2 := by
  induction l with
  | nil => simp [coOccurrenceRelsBasic]
  | cons t rest ih =>
      have h1 : (rest.filter (fun t2 => t != t2)).length ≤ rest.length :=
        List.length_filter_le _ _
      calc (coOccurrenceRelsBasic repo fp (t :: rest)).length
          = (rest.filter (fun t2 => t != t2)).length
              + (coOccurrenceRelsBasic repo fp rest).length := by
            simp [coOccurrenceRelsBasic]
        _ ≤ rest.length + rest.length.choose 2 := Nat.add_le_add h1 ih
        _ = (rest.length + 1).choose 2 := by
            rw [Nat.choose_succ_succ, Nat.choose_one_right]
        _ = (t :: rest).length.choose 2 := by simp

/-- C8: key-term extraction returns at most 20 pairwise-distinct terms,
and the basic relationship generator run on such a term list emits at
most 190 co_occurrence relationships for the file. -/
theorem key_terms_capped_cooccurrence_bounded
    (ms : List String) (repo fp : String) :
    (extract_key_terms ms).Nodup ∧
    (extract_key_terms ms).length ≤ 20 ∧
    ((extract_relationships_basic repo fp (extract_key_terms ms)).filter
        (fun r => r.rtype == RelType.co_occurrence)).length ≤ 190 := by
  refine ⟨?_, ?_, ?_⟩
  · exact List.Nodup.sublist (List.take_sublist _ _) (List.nodup_dedup ms)
  · exact List.length_take_le _ _
  · have hb : (repoTermRels repo fp (extract_key_terms ms)).filter
        (fun r => r.rtype == RelType.co_occurrence) = [] := by
      rw [List.filter_eq_nil_iff]
      intro r hr
      rw [(mem_repoTermRels hr).1]
      decide
    have hlen20 : (extract_key_terms ms).length ≤ 20 := List.length_take_le _ _
    calc ((extract_relationships_basic repo fp (extract_key_terms ms)).filter
            (fun r => r.rtype == RelType.co_occurrence)).length
        = ((coOccurrenceRelsBasic repo fp (extract_key_terms ms)).filter
            (fun r => r.rtype == RelType.co_occurrence)).length := by
          simp [extract_relationships_basic, List.filter_append, hb]
      _ ≤ (coOccurrenceRelsBasic repo fp (extract_key_terms ms)).length :=
          List.length_filter_le _ _
      _ ≤ (extract_key_terms ms).length.choose 2 :=
          coOccurrenceRelsBasic_length_le repo fp _
      _ ≤ Nat.choose 20 2 := Nat.choose_le_choose 2 hlen20
      _ = 190 := by decide

/-- The shared title-scanning loop is the first-match scan over the line
slice. -/
theorem titleLoop_eq_findSome (l : List String) :
    titleLoop l = l.findSome? titleOfLine := by
  induction l with
  | nil => rfl
  | cons line rest ih =>
      simp only [titleLoop, titleOfLine, List.findSome?]
      cases h1 : pyStartsWith (pyStrip line) "# " <;>
        cases h2 : pyStartsWith (pyStrip line) "title:" <;>
          simp [h1, h2, ih]

/-- C3 (counterexample): on a file whose first matching header line is
the seventh line, the basic extractor falls back to the filename-derived
title instead of returning that header, because it scans only the first
5 lines rather than the first 10 the claim describes. -/
theorem title_first_ten_lines_counterexample :
    extract_title_basic lateTitleContent "notes.md" = "Notes.Md" ∧
    (specTitleScan 10 lateTitleContent).getD "" = "Real Title" ∧
    ("Notes.Md" : String) ≠ "Real Title" := by
  refine ⟨by decide, by decide, by decide⟩

/-- C3 (amended): the kb extractor scans the first 10 lines and falls
back to the sentinel No Title Found; the basic extractor scans only the
first 5 lines and falls back to the filename with underscores and
hyphens replaced by spaces and the result title-cased. -/
theorem title_extraction_amended (content filename : String) :
    extract_title content = (specTitleScan 10 content).getD "No Title Found" ∧
    extract_title_basic content filename =
      (specTitleScan 5 content).getD
        (pyTitle (pyReplaceChar (pyReplaceChar filename (Char.ofNat 95) (Char.ofNat 32))
          (Char.ofNat 45) (Char.ofNat 32))) := by
  constructor
  · simp only [extract_title, specTitleScan, titleLoop_eq_findSome]
    cases h : ((pySplitLines content).take 10).findSome? titleOfLine <;> simp [h]
  · simp only [extract_title_basic, specTitleScan, titleLoop_eq_findSome]
    cases h : ((pySplitLines content).take 5).findSome? titleOfLine <;> simp [h]

/-- Appending a posting for one word never removes an existing posting. -/
theorem indexAdd_mem {idx : String → List Nat} {w t : String} {i m : Nat}
    (h : m ∈ idx t) : m ∈ indexAdd idx w i t := by
  unfold indexAdd
  by_cases ht : t = w
  · rw [if_pos ht]
    exact List.mem_append_left _ h
  · rw [if_neg ht]
    exact h

/-- The word loop for one entity never removes an existing posting. -/
theorem addEntityWords_mem_preserve (i : Nat) (ws : List String)
    {idx : String → List Nat} {t : String} {m : Nat} (h : m ∈ idx t) :
    m ∈ addEntityWords i idx ws t := by
  induction ws generalizing idx with
  | nil => exact h
  | cons w rest ih =>
      simp only [addEntityWords]
      apply ih
      by_cases hl : 2 < w.length
      · rw [if_pos hl]
        exact indexAdd_mem h
      · rw [if_neg hl]
        exact h

/-- The word loop for entity i inserts i under every word of the entity
longer than two characters. -/
theorem addEntityWords_mem_self (i : Nat) {ws : List String} {t : String}
    (hin : t ∈ ws) (hlen : 2 < t.length) (idx : String → List Nat) :
    i ∈ addEntityWords i idx ws t := by
  induction ws generalizing idx with
  | nil => cases hin
  | cons w rest ih =>
      simp only [addEntityWords]
      rcases List.mem_cons.mp hin with rfl | hmem
      · apply addEntityWords_mem_preserve
        rw [if_pos hlen]
        simp [indexAdd]
      · exact ih hmem _

/-- The enumeration loop never removes an existing posting. -/
theorem buildConceptIndexGo_mem_preserve (cs : List ConceptRecord) (j : Nat)
    {idx : String → List Nat} {t : String} {m : Nat} (h : m ∈ idx t) :
    m ∈ buildConceptIndexGo j idx cs t := by
  induction cs generalizing idx j with
  | nil => exact h
  | cons c rest ih =>
      exact ih (j + 1) (addEntityWords_mem_preserve _ _ h)

/-- The enumeration loop starting at offset j inserts j + k under every
long-enough word of the entity at position k. -/
theorem buildConceptIndexGo_mem (cs : List ConceptRecord) (k j : Nat)
    (c : ConceptRecord) (hk : cs.get? k = some c) {t : String}
    (hw : t ∈ conceptWords c) (hlen : 2 < t.length) (idx : String → List Nat) :
    (j + k) ∈ buildConceptIndexGo j idx cs t := by
  induction cs generalizing k j idx with
  | nil => simp at hk
  | cons c0 rest ih =>
      cases k with
      | zero =>
          obtain rfl : c0 = c := by simpa using hk
          simp only [buildConceptIndexGo, Nat.add_zero]
          exact buildConceptIndexGo_mem_preserve rest (j + 1)
            (addEntityWords_mem_self j hw hlen idx)
      | succ k' =>
          simp only [List.get?] at hk
          simp only [buildConceptIndexGo]
          have harith : j + (k' + 1) = (j + 1) + k' := by omega
          rw [harith]
          exact ih k' (j + 1) hk _

/-- C7: every whitespace token longer than two characters of the
lowercased searchable text of the concept at position i appears as a key
of the concept inverted index (its posting list is non-empty) with i in
its posting list. -/
theorem concept_index_complete (cs : List ConceptRecord) (i : Nat)
    (c : ConceptRecord) (t : String) (hc : cs.get? i = some c)
    (ht : t ∈ conceptWords c) (hlen : 2 < t.length) :
    i ∈ create_search_index_concepts cs t ∧
      create_search_index_concepts cs t ≠ [] := by
  have h := buildConceptIndexGo_mem cs i 0 c hc ht hlen (fun _ => [])
  rw [Nat.zero_add] at h
  exact ⟨h, List.ne_nil_of_mem h⟩

/-- Witness for C7: the token utcp of the single concept named UTCP
Protocol is indexed with position 0 in its posting list. -/
theorem concept_index_complete_witness :
    0 ∈ create_search_index_concepts [witnessConcept] "utcp" ∧
      create_search_index_concepts [witnessConcept] "utcp" ≠ [] :=
  concept_index_complete [witnessConcept] 0 witnessConcept "utcp"
    (by decide) (by decide) (by decide)
